import Mathlib

/-!
Verification of the reqx credential-refresh and failure-recovery coordinator
(r3dpixel/toolkit).

Shallow embedding conventions:
* Go `time.Time` instants and `time.Duration` values are modelled as `Int`;
  the Go zero instant `time.Time{}` is modelled as `0` and `t.Before u` as
  `t < u` (strict, as in Go), `t.Add d` as `t + d`.
* The external JWT parser (`jwtParser.ParseUnverified` + `GetExpirationTime`)
  is a parameter `parse : String → JwtParseResult`: it either fails to parse,
  parses a token without a usable expiration claim, or yields an expiration.
* Errors are modelled as `String`; fallible Go calls return `Except String α`.
* Concurrency (goroutines racing on one store guarded by `sync.RWMutex` /
  `sync.Mutex`) is modelled by explicit small-step transition relations over a
  global state; reachability is `Relation.ReflTransGen`.
-/

/-- Go `unicode.IsSpace` on a rune: the Unicode White_Space property
(the exact code-point set of Go's `unicode.White_Space` table). -/
def goIsSpace (c : Char) : Bool :=
  c.val = 0x09 || c.val = 0x0A || c.val = 0x0B || c.val = 0x0C || c.val = 0x0D ||
  c.val = 0x20 || c.val = 0x85 || c.val = 0xA0 || c.val = 0x1680 ||
  (0x2000 ≤ c.val && c.val ≤ 0x200A) ||
  c.val = 0x2028 || c.val = 0x2029 || c.val = 0x202F || c.val = 0x205F ||
  c.val = 0x3000

/-- `stringsx.IsBlank`: true iff the string is empty or all-whitespace.
The Go implementation walks bytes with an ASCII fast path and falls back to
`isBlankUnicode` (a rune loop over `unicode.IsSpace`) at the first non-ASCII
byte; on the valid-UTF-8 strings Lean's `String` represents, that is exactly
"every rune satisfies `unicode.IsSpace`" (the ASCII table marks precisely the
ASCII members of White_Space). -/
def IsBlank (value : String) : Bool :=
  value.data.all goIsSpace

/-- Outcome of the external JWT decode pipeline for one token string:
`ParseUnverified` fails; or it parses but `GetExpirationTime` errors or
returns nil (no usable `exp` claim); or it yields an expiration instant. -/
inductive JwtParseResult where
  | parseError
  | noExpiration
  | expiration (e : Int)
  deriving DecidableEq, Repr

/-- `extractTokenExpiration`: parses a JWT token string and returns its
expiration time; blank input, parse failure, and a missing/undecodable
expiration claim all yield the zero instant (modelled as `0`). -/
def extractTokenExpiration (parse : String → JwtParseResult) (tokenString : String) : Int :=
  -- Check if the token is blank
  if IsBlank tokenString then 0
  else
    -- Parse the token and extract the expiration time
    match parse tokenString with
    | .parseError => 0
    | .noExpiration => 0
    | .expiration e => e

/-- `cred.Identity`: a credential read from the identity store. -/
structure Identity where
  user : String
  secret : String
  deriving DecidableEq, Repr

/-- `refreshableAuthStore`: the token cache fields guarded by `tokenMu`,
plus the configured refresh buffer. The `client`, `identityReader` and
`refreshTokenFunc` fields are passed as explicit oracles to the operations. -/
structure RefreshableAuthStore where
  token : String
  tokenExpiration : Int
  authRefreshBuffer : Int
  deriving DecidableEq, Repr

/-- `newRefreshableAuthStore`: a fresh store; Go zero values give an empty
token and the zero expiration instant. -/
def newRefreshableAuthStore (authRefreshBuffer : Int) : RefreshableAuthStore :=
  { token := "", tokenExpiration := 0, authRefreshBuffer := authRefreshBuffer }

/-- `getTokenAndCheckExpiryAt`: atomically (under `tokenMu.RLock`) read the
cached token and compute `isExpired = tokenExpiration.Before(t.Add(buffer))`,
i.e. `tokenExpiration < t + buffer` with Go's strict `Before`. -/
def getTokenAndCheckExpiryAt (as : RefreshableAuthStore) (t : Int) : String × Bool :=
  (as.token, decide (as.tokenExpiration < t + as.authRefreshBuffer))

/-- `setBearerToken`: atomically (under `tokenMu.Lock`) replace the cached
token and cache the expiration decoded from that exact token string. -/
def setBearerToken (parse : String → JwtParseResult)
    (as : RefreshableAuthStore) (token : String) : RefreshableAuthStore :=
  { as with token := token, tokenExpiration := extractTokenExpiration parse token }

/-- Result of one uninterfered `getValidToken` call: the returned
token-or-error, the store state after the call, whether the call entered the
refresh attempt (passed the double-checked staleness test, so the credential
fetch runs), and whether `refreshTokenFunc` itself was invoked. -/
structure GetTokenOutcome where
  result : Except String String
  store : RefreshableAuthStore
  refreshAttempted : Bool
  refreshInvoked : Bool
  deriving Repr

/-- `getValidToken`, sequential semantics (the call runs without interference
from concurrent callers; the interleaved semantics is `AuthStep` below).
`now` is captured once at entry; the fast-path check and the re-check after
acquiring `refreshMu` both use it. -/
def getValidToken (parse : String → JwtParseResult)
    (identityGet : Except String Identity)
    (refreshTokenFunc : Identity → Except String String)
    (now : Int) (as : RefreshableAuthStore) : GetTokenOutcome :=
  -- Atomically get a token and check if expired (fast path)
  let fastPath := getTokenAndCheckExpiryAt as now
  if fastPath.2 = false then
    { result := .ok fastPath.1, store := as, refreshAttempted := false, refreshInvoked := false }
  else
    -- Lock refreshMu; check again after acquiring the lock, at the same `now`
    let recheck := getTokenAndCheckExpiryAt as now
    if recheck.2 = false then
      { result := .ok recheck.1, store := as, refreshAttempted := false, refreshInvoked := false }
    else
      -- Get the identity
      match identityGet with
      | .error e =>
          { result := .error e, store := setBearerToken parse as "",
            refreshAttempted := true, refreshInvoked := false }
      | .ok identity =>
          -- Refresh the token
          match refreshTokenFunc identity with
          | .error e =>
              { result := .error e, store := setBearerToken parse as "",
                refreshAttempted := true, refreshInvoked := true }
          | .ok newToken =>
              { result := .ok newToken, store := setBearerToken parse as newToken,
                refreshAttempted := true, refreshInvoked := true }

/-! ## Concurrent semantics of `getValidToken`

Each of `n` concurrent callers captures its own entry time `now i` and runs
the double-checked-locking protocol against a shared store.  Shared state is
touched only at: the fast-path read (`tokenMu.RLock`), acquiring/releasing
`refreshMu`, the re-check read, and the final `setBearerToken` write
(`tokenMu.Lock`).  The credential fetch, the refresh call and the final write
happen with `refreshMu` held and do not write shared state until the single
atomic `setBearerToken`; they are therefore merged into one transition, which
preserves the set of behaviours visible to the other (read-only) callers. -/

/-- Program counter of one concurrent `getValidToken` caller. -/
inductive APc where
  | start
  | awaitLock
  | recheck
  | doRefresh
  | done (r : Except String String)

/-- Global state of one `refreshableAuthStore` with `n` concurrent callers:
the shared cache, the holder of `refreshMu` (if any), the number of
`refreshTokenFunc` invocations so far, and each caller's program counter. -/
structure AState (n : Nat) where
  store : RefreshableAuthStore
  lockHeld : Option (Fin n)
  refreshCount : Nat
  pcs : Fin n → APc

/-- Initial state: no caller has run yet, `refreshMu` is free. -/
def initAState (n : Nat) (store0 : RefreshableAuthStore) : AState n :=
  { store := store0, lockHeld := none, refreshCount := 0, pcs := fun _ => .start }

/-- One interleaved step of caller `i` in `getValidToken`.  Each constructor
is one atomic action of the Go code: the fast-path check, acquiring
`refreshMu`, the re-check under the lock (evaluated, like the fast path, at
the caller's entry time `now i`), and the credential-fetch/refresh/store
critical section (three outcome cases). -/
inductive AuthStep (parse : String → JwtParseResult)
    (identityGet : Except String Identity)
    (refreshTokenFunc : Identity → Except String String)
    {n : Nat} (now : Fin n → Int) (i : Fin n) :
    AState n → AState n → Prop where
  | fastFresh (s : AState n) :
      s.pcs i = .start →
      (getTokenAndCheckExpiryAt s.store (now i)).2 = false →
      AuthStep parse identityGet refreshTokenFunc now i s
        { s with pcs := Function.update s.pcs i (.done (.ok s.store.token)) }
  | fastStale (s : AState n) :
      s.pcs i = .start →
      (getTokenAndCheckExpiryAt s.store (now i)).2 = true →
      AuthStep parse identityGet refreshTokenFunc now i s
        { s with pcs := Function.update s.pcs i .awaitLock }
  | acquire (s : AState n) :
      s.pcs i = .awaitLock →
      s.lockHeld = none →
      AuthStep parse identityGet refreshTokenFunc now i s
        { s with lockHeld := some i, pcs := Function.update s.pcs i .recheck }
  | recheckFresh (s : AState n) :
      s.pcs i = .recheck →
      (getTokenAndCheckExpiryAt s.store (now i)).2 = false →
      AuthStep parse identityGet refreshTokenFunc now i s
        { s with lockHeld := none,
                 pcs := Function.update s.pcs i (.done (.ok s.store.token)) }
  | recheckStale (s : AState n) :
      s.pcs i = .recheck →
      (getTokenAndCheckExpiryAt s.store (now i)).2 = true →
      AuthStep parse identityGet refreshTokenFunc now i s
        { s with pcs := Function.update s.pcs i .doRefresh }
  | identityErr (s : AState n) (e : String) :
      s.pcs i = .doRefresh →
      identityGet = .error e →
      AuthStep parse identityGet refreshTokenFunc now i s
        { store := setBearerToken parse s.store "", lockHeld := none,
          refreshCount := s.refreshCount,
          pcs := Function.update s.pcs i (.done (.error e)) }
  | refreshErr (s : AState n) (identity : Identity) (e : String) :
      s.pcs i = .doRefresh →
      identityGet = .ok identity →
      refreshTokenFunc identity = .error e →
      AuthStep parse identityGet refreshTokenFunc now i s
        { store := setBearerToken parse s.store "", lockHeld := none,
          refreshCount := s.refreshCount + 1,
          pcs := Function.update s.pcs i (.done (.error e)) }
  | refreshOk (s : AState n) (identity : Identity) (newToken : String) :
      s.pcs i = .doRefresh →
      identityGet = .ok identity →
      refreshTokenFunc identity = .ok newToken →
      AuthStep parse identityGet refreshTokenFunc now i s
        { store := setBearerToken parse s.store newToken, lockHeld := none,
          refreshCount := s.refreshCount + 1,
          pcs := Function.update s.pcs i (.done (.ok newToken)) }

/-- A state is reachable if some interleaving of caller steps leads to it
from the initial state. -/
def AuthReach (parse : String → JwtParseResult)
    (identityGet : Except String Identity)
    (refreshTokenFunc : Identity → Except String String)
    {n : Nat} (now : Fin n → Int) (store0 : RefreshableAuthStore)
    (s : AState n) : Prop :=
  Relation.ReflTransGen
    (fun s s' => ∃ i, AuthStep parse identityGet refreshTokenFunc now i s s')
    (initAState n store0) s

/-! ## Concrete oracles used by witnesses and counterexamples -/

/-- A parser oracle that decodes every token to expiration instant 100. -/
def parseExp100 : String → JwtParseResult := fun _ => .expiration 100

/-- An identity fetch that succeeds. -/
def idOk : Except String Identity := .ok { user := "u", secret := "s" }

/-- A refresh oracle that always returns the token "newtok". -/
def rfOk : Identity → Except String String := fun _ => .ok "newtok"

/-! ## C2: staleness test of `getValidToken` -/

/-- Helper: the fast path of `getValidToken` when the token is not yet stale. -/
theorem getValidToken_fresh (parse : String → JwtParseResult)
    (identityGet : Except String Identity)
    (refreshTokenFunc : Identity → Except String String)
    (now : Int) (as : RefreshableAuthStore)
    (h : ¬ (as.tokenExpiration < now + as.authRefreshBuffer)) :
    getValidToken parse identityGet refreshTokenFunc now as =
      { result := .ok as.token, store := as,
        refreshAttempted := false, refreshInvoked := false } := by
  simp [getValidToken, getTokenAndCheckExpiryAt, h]

/-- Helper: the slow path of `getValidToken` when the token is stale. -/
theorem getValidToken_stale (parse : String → JwtParseResult)
    (identityGet : Except String Identity)
    (refreshTokenFunc : Identity → Except String String)
    (now : Int) (as : RefreshableAuthStore)
    (h : as.tokenExpiration < now + as.authRefreshBuffer) :
    getValidToken parse identityGet refreshTokenFunc now as =
      match identityGet with
      | .error e =>
          { result := .error e, store := setBearerToken parse as "",
            refreshAttempted := true, refreshInvoked := false }
      | .ok identity =>
          match refreshTokenFunc identity with
          | .error e =>
              { result := .error e, store := setBearerToken parse as "",
                refreshAttempted := true, refreshInvoked := true }
          | .ok newToken =>
              { result := .ok newToken, store := setBearerToken parse as newToken,
                refreshAttempted := true, refreshInvoked := true } := by
  simp [getValidToken, getTokenAndCheckExpiryAt, h]

/-- C2 (counterexample): at the exact boundary `expiration = now + buffer`
the code does NOT trigger a refresh attempt — Go's `Before` is strict, so the
token is served from cache.  Store: token "tok", expiration 7, buffer 2;
call at `now = 5`, so `now + buffer = 7 = expiration`. -/
theorem c2_boundary_counterexample :
    (getValidToken parseExp100 idOk rfOk 5
        { token := "tok", tokenExpiration := 7, authRefreshBuffer := 2 }).refreshAttempted
      = false ∧
    (getValidToken parseExp100 idOk rfOk 5
        { token := "tok", tokenExpiration := 7, authRefreshBuffer := 2 }).refreshInvoked
      = false ∧
    (getValidToken parseExp100 idOk rfOk 5
        { token := "tok", tokenExpiration := 7, authRefreshBuffer := 2 }).result
      = .ok "tok" :=
  ⟨rfl, rfl, rfl⟩

/-- C2 (amended): a call serves the cached token without any refresh attempt
iff the decoded expiration is at least `now + refreshBuffer` (so also exactly
at the boundary); a refresh attempt is triggered exactly when the expiration
is strictly before `now + refreshBuffer` (including already past). -/
theorem c2_staleness_test (parse : String → JwtParseResult)
    (identityGet : Except String Identity)
    (refreshTokenFunc : Identity → Except String String)
    (now : Int) (as : RefreshableAuthStore) :
    (¬ (as.tokenExpiration < now + as.authRefreshBuffer) →
      getValidToken parse identityGet refreshTokenFunc now as =
        { result := .ok as.token, store := as,
          refreshAttempted := false, refreshInvoked := false }) ∧
    (as.tokenExpiration < now + as.authRefreshBuffer →
      (getValidToken parse identityGet refreshTokenFunc now as).refreshAttempted = true) := by
  constructor
  · exact getValidToken_fresh parse identityGet refreshTokenFunc now as
  · intro h
    rw [getValidToken_stale parse identityGet refreshTokenFunc now as h]
    cases identityGet with
    | error e => rfl
    | ok identity => cases hrf : refreshTokenFunc identity <;> simp [hrf]

/-- C2 witness: both branches of `c2_staleness_test` at concrete inputs:
expiration 7 at `now + buffer = 7` is served from cache; expiration 6 at
`now + buffer = 7` triggers a refresh attempt. -/
theorem c2_staleness_test_witness :
    getValidToken parseExp100 idOk rfOk 5
        { token := "tok", tokenExpiration := 7, authRefreshBuffer := 2 } =
      { result := .ok "tok",
        store := { token := "tok", tokenExpiration := 7, authRefreshBuffer := 2 },
        refreshAttempted := false, refreshInvoked := false } ∧
    (getValidToken parseExp100 idOk rfOk 5
        { token := "tok", tokenExpiration := 6, authRefreshBuffer := 2 }).refreshAttempted
      = true :=
  ⟨(c2_staleness_test parseExp100 idOk rfOk 5
      { token := "tok", tokenExpiration := 7, authRefreshBuffer := 2 }).1 (by decide),
   (c2_staleness_test parseExp100 idOk rfOk 5
      { token := "tok", tokenExpiration := 6, authRefreshBuffer := 2 }).2 (by decide)⟩

/-! ## C3: refresh failure clears the cache -/

/-- Helper: the empty string is blank, so it decodes to the zero instant. -/
theorem extractTokenExpiration_empty (parse : String → JwtParseResult) :
    extractTokenExpiration parse "" = 0 := rfl

/-- C3: on a stale cache, if the credential fetch errors or the refresh
function errors, `getValidToken` returns an empty token together with that
error (modelled as `.error e`, the Go pair `("", err)`), and leaves the cache
cleared: empty token and zero expiration, so the next call retries from
scratch. -/
theorem c3_failure_clears_cache (parse : String → JwtParseResult)
    (now : Int) (as : RefreshableAuthStore)
    (hexp : as.tokenExpiration < now + as.authRefreshBuffer) :
    (∀ (e : String) (refreshTokenFunc : Identity → Except String String),
      (getValidToken parse (.error e) refreshTokenFunc now as).result = .error e ∧
      (getValidToken parse (.error e) refreshTokenFunc now as).store.token = "" ∧
      (getValidToken parse (.error e) refreshTokenFunc now as).store.tokenExpiration = 0) ∧
    (∀ (identity : Identity) (e : String)
       (refreshTokenFunc : Identity → Except String String),
      refreshTokenFunc identity = .error e →
      (getValidToken parse (.ok identity) refreshTokenFunc now as).result = .error e ∧
      (getValidToken parse (.ok identity) refreshTokenFunc now as).store.token = "" ∧
      (getValidToken parse (.ok identity) refreshTokenFunc now as).store.tokenExpiration = 0) := by
  constructor
  · intro e refreshTokenFunc
    rw [getValidToken_stale parse (.error e) refreshTokenFunc now as hexp]
    exact ⟨rfl, rfl, extractTokenExpiration_empty parse⟩
  · intro identity e refreshTokenFunc hrf
    rw [getValidToken_stale parse (.ok identity) refreshTokenFunc now as hexp]
    simp only [hrf]
    exact ⟨trivial, rfl, extractTokenExpiration_empty parse⟩

/-- C3 witness: both failure modes at concrete inputs (stale store with
expiration 0, call at time 5, buffer 0). -/
theorem c3_failure_clears_cache_witness :
    ((getValidToken parseExp100 (.error "no identity") rfOk 5
        { token := "old", tokenExpiration := 0, authRefreshBuffer := 0 }).result
        = .error "no identity" ∧
     (getValidToken parseExp100 (.error "no identity") rfOk 5
        { token := "old", tokenExpiration := 0, authRefreshBuffer := 0 }).store.token = "" ∧
     (getValidToken parseExp100 (.error "no identity") rfOk 5
        { token := "old", tokenExpiration := 0, authRefreshBuffer := 0 }).store.tokenExpiration
        = 0) ∧
    ((getValidToken parseExp100 (.ok { user := "u", secret := "s" })
        (fun _ => .error "refresh down") 5
        { token := "old", tokenExpiration := 0, authRefreshBuffer := 0 }).result
        = .error "refresh down" ∧
     (getValidToken parseExp100 (.ok { user := "u", secret := "s" })
        (fun _ => .error "refresh down") 5
        { token := "old", tokenExpiration := 0, authRefreshBuffer := 0 }).store.token = "" ∧
     (getValidToken parseExp100 (.ok { user := "u", secret := "s" })
        (fun _ => .error "refresh down") 5
        { token := "old", tokenExpiration := 0, authRefreshBuffer := 0 }).store.tokenExpiration
        = 0) :=
  ⟨(c3_failure_clears_cache parseExp100 5
      { token := "old", tokenExpiration := 0, authRefreshBuffer := 0 } (by decide)).1
      "no identity" rfOk,
   (c3_failure_clears_cache parseExp100 5
      { token := "old", tokenExpiration := 0, authRefreshBuffer := 0 } (by decide)).2
      { user := "u", secret := "s" } "refresh down" (fun _ => .error "refresh down") rfl⟩

/-! ## C4: cache coherence invariant -/

/-- The claimed invariant of a `refreshableAuthStore`: a non-empty cached
token always has the expiration decoded from that exact token string cached
alongside it (`extractTokenExpiration` itself yields the zero instant when
the token is undecodable). -/
def StoreInv (parse : String → JwtParseResult) (as : RefreshableAuthStore) : Prop :=
  as.token ≠ "" → as.tokenExpiration = extractTokenExpiration parse as.token

/-- C4: the cache-coherence invariant holds for a fresh store, holds for the
result of every `setBearerToken`, and is preserved by every `getValidToken`
call (sequential semantics) and by every interleaved step of any concurrent
caller. -/
theorem c4_cache_coherence (parse : String → JwtParseResult) :
    (∀ buffer : Int, StoreInv parse (newRefreshableAuthStore buffer)) ∧
    (∀ (as : RefreshableAuthStore) (token : String),
      StoreInv parse (setBearerToken parse as token)) ∧
    (∀ (identityGet : Except String Identity)
       (refreshTokenFunc : Identity → Except String String)
       (now : Int) (as : RefreshableAuthStore),
      StoreInv parse as →
      StoreInv parse (getValidToken parse identityGet refreshTokenFunc now as).store) ∧
    (∀ (n : Nat) (now : Fin n → Int) (identityGet : Except String Identity)
       (refreshTokenFunc : Identity → Except String String)
       (i : Fin n) (s s' : AState n),
      AuthStep parse identityGet refreshTokenFunc now i s s' →
      StoreInv parse s.store → StoreInv parse s'.store) := by
  refine ⟨?_, ?_, ?_, ?_⟩
  · intro buffer h
    exact absurd rfl h
  · intro as token
    intro _
    rfl
  · intro identityGet refreshTokenFunc now as hinv
    by_cases hexp : as.tokenExpiration < now + as.authRefreshBuffer
    · rw [getValidToken_stale parse identityGet refreshTokenFunc now as hexp]
      cases identityGet with
      | error e => exact fun _ => rfl
      | ok identity =>
        cases hrf : refreshTokenFunc identity with
        | error e => simp only [hrf]; exact fun _ => rfl
        | ok newToken => simp only [hrf]; exact fun _ => rfl
    · rw [getValidToken_fresh parse identityGet refreshTokenFunc now as hexp]
      exact hinv
  · intro n now identityGet refreshTokenFunc i s s' hstep hinv
    cases hstep with
    | fastFresh h1 h2 => exact hinv
    | fastStale h1 h2 => exact hinv
    | acquire h1 h2 => exact hinv
    | recheckFresh h1 h2 => exact hinv
    | recheckStale h1 h2 => exact hinv
    | identityErr e h1 h2 => exact fun _ => rfl
    | refreshErr identity e h1 h2 h3 => exact fun _ => rfl
    | refreshOk identity newToken h1 h2 h3 => exact fun _ => rfl

/-- C4 witness: the invariant instances at concrete inputs, including the
preservation clauses applied to a concrete call and a concrete step. -/
theorem c4_cache_coherence_witness :
    StoreInv parseExp100 (newRefreshableAuthStore 2) ∧
    StoreInv parseExp100
      (setBearerToken parseExp100 (newRefreshableAuthStore 2) "newtok") ∧
    StoreInv parseExp100
      (getValidToken parseExp100 idOk rfOk 5 (newRefreshableAuthStore 0)).store ∧
    StoreInv parseExp100
      ((initAState 1 (newRefreshableAuthStore 0)).store) :=
  ⟨(c4_cache_coherence parseExp100).1 2,
   (c4_cache_coherence parseExp100).2.1 (newRefreshableAuthStore 2) "newtok",
   (c4_cache_coherence parseExp100).2.2.1 idOk rfOk 5 (newRefreshableAuthStore 0)
     (fun h => absurd rfl h),
   (c4_cache_coherence parseExp100).2.2.2 1 (fun _ => 5) idOk rfOk 0
     (initAState 1 (newRefreshableAuthStore 0))
     { initAState 1 (newRefreshableAuthStore 0) with
         pcs := Function.update (initAState 1 (newRefreshableAuthStore 0)).pcs 0 .awaitLock }
     (AuthStep.fastStale (initAState 1 (newRefreshableAuthStore 0)) rfl (by decide))
     (fun h => absurd rfl h)⟩

/-! ## C9: total, fail-safe token-expiration decoding -/

/-- Helper: a stale cache makes `getValidToken` enter the refresh attempt. -/
theorem getValidToken_stale_attempted (parse : String → JwtParseResult)
    (identityGet : Except String Identity)
    (refreshTokenFunc : Identity → Except String String)
    (now : Int) (as : RefreshableAuthStore)
    (h : as.tokenExpiration < now + as.authRefreshBuffer) :
    (getValidToken parse identityGet refreshTokenFunc now as).refreshAttempted = true := by
  rw [getValidToken_stale parse identityGet refreshTokenFunc now as h]
  cases identityGet with
  | error e => rfl
  | ok identity => cases hrf : refreshTokenFunc identity <;> simp [hrf]

/-- C9: `extractTokenExpiration` is a total function (it can never raise an
error): blank input, a string the JWT parser rejects, and a parsed token
without a usable expiration claim all decode to the zero instant; and a store
caching the zero instant is treated as always expired by the staleness test,
so every `getValidToken` call on it triggers a refresh attempt (for any call
instant with `0 < now + buffer`, which holds for every positive clock reading
and non-negative buffer). -/
theorem c9_decode_fail_safe (parse : String → JwtParseResult) :
    (∀ s : String, IsBlank s = true → extractTokenExpiration parse s = 0) ∧
    (∀ s : String, parse s = .parseError → extractTokenExpiration parse s = 0) ∧
    (∀ s : String, parse s = .noExpiration → extractTokenExpiration parse s = 0) ∧
    (∀ (identityGet : Except String Identity)
       (refreshTokenFunc : Identity → Except String String)
       (now : Int) (as : RefreshableAuthStore),
      as.tokenExpiration = 0 → 0 < now + as.authRefreshBuffer →
      (getTokenAndCheckExpiryAt as now).2 = true ∧
      (getValidToken parse identityGet refreshTokenFunc now as).refreshAttempted = true) := by
  refine ⟨?_, ?_, ?_, ?_⟩
  · intro s hblank
    simp [extractTokenExpiration, hblank]
  · intro s hparse
    by_cases hblank : IsBlank s = true
    · simp [extractTokenExpiration, hblank]
    · simp [extractTokenExpiration, hblank, hparse]
  · intro s hparse
    by_cases hblank : IsBlank s = true
    · simp [extractTokenExpiration, hblank]
    · simp [extractTokenExpiration, hblank, hparse]
  · intro identityGet refreshTokenFunc now as hzero hpos
    have hlt : as.tokenExpiration < now + as.authRefreshBuffer := by omega
    refine ⟨by simp [getTokenAndCheckExpiryAt, hlt], ?_⟩
    exact getValidToken_stale_attempted parse identityGet refreshTokenFunc now as hlt

/-- C9 witness: concrete instances of every clause, with a parser that
rejects every string, on the fresh store (cached expiration 0) at time 5. -/
theorem c9_decode_fail_safe_witness :
    extractTokenExpiration (fun _ => .parseError) " " = 0 ∧
    extractTokenExpiration (fun _ => .parseError) "not-a-jwt" = 0 ∧
    extractTokenExpiration (fun _ => .noExpiration) "eyJhbGciJ9.e30.x" = 0 ∧
    ((getTokenAndCheckExpiryAt (newRefreshableAuthStore 2) 5).2 = true ∧
     (getValidToken (fun _ => .parseError) idOk rfOk 5
        (newRefreshableAuthStore 2)).refreshAttempted = true) :=
  ⟨(c9_decode_fail_safe (fun _ => .parseError)).1 " " (by decide),
   (c9_decode_fail_safe (fun _ => .parseError)).2.1 "not-a-jwt" rfl,
   (c9_decode_fail_safe (fun _ => .noExpiration)).2.2.1 "eyJhbGciJ9.e30.x" rfl,
   (c9_decode_fail_safe (fun _ => .parseError)).2.2.2 idOk rfOk 5
     (newRefreshableAuthStore 2) rfl (by decide)⟩

/-! ## C1: single-flight refresh under concurrency -/

/-- Inductive invariant for the concurrent double-checked-locking protocol,
under a fixed initial store `store0`, a successful refresh oracle producing
`newToken`, and per-caller entry times `now`. -/
structure AuthInv (parse : String → JwtParseResult) {n : Nat} (now : Fin n → Int)
    (store0 : RefreshableAuthStore) (newToken : String) (s : AState n) : Prop where
  count_le : s.refreshCount ≤ 1
  store_init : s.refreshCount = 0 → s.store = store0
  store_refreshed : s.refreshCount = 1 → s.store = setBearerToken parse store0 newToken
  lock_iff : ∀ i, (s.pcs i = .recheck ∨ s.pcs i = .doRefresh) ↔ s.lockHeld = some i
  doRefresh_count : ∀ i, s.pcs i = .doRefresh → s.refreshCount = 0
  done_ok : ∀ i r, s.pcs i = .done r → r = .ok newToken

/-- Helper: whenever a caller's staleness check comes back false, the cache
already holds the refreshed token (the initial store is stale for everyone). -/
theorem check_false_token_eq (parse : String → JwtParseResult) {n : Nat}
    (now : Fin n → Int) (store0 : RefreshableAuthStore) (newToken : String)
    {s : AState n}
    (hexp : ∀ i, store0.tokenExpiration < now i + store0.authRefreshBuffer)
    (h1 : s.refreshCount ≤ 1)
    (h2 : s.refreshCount = 0 → s.store = store0)
    (h3 : s.refreshCount = 1 → s.store = setBearerToken parse store0 newToken)
    (i : Fin n)
    (hchk : (getTokenAndCheckExpiryAt s.store (now i)).2 = false) :
    s.store.token = newToken := by
  rcases Nat.le_one_iff_eq_zero_or_eq_one.mp h1 with h0 | h0
  · rw [h2 h0] at hchk
    simp only [getTokenAndCheckExpiryAt, decide_eq_false_iff_not] at hchk
    exact absurd (hexp i) hchk
  · rw [h3 h0]

    rfl

/-- One interleaved step preserves the single-flight invariant, provided the
initial cache is stale for every caller, the credential fetch and the refresh
succeed, and the refreshed token is not yet stale at any caller's entry time. -/
theorem authInv_step (parse : String → JwtParseResult) {n : Nat}
    (now : Fin n → Int) (store0 : RefreshableAuthStore)
    (identity0 : Identity) (newToken : String)
    (identityGet : Except String Identity)
    (refreshTokenFunc : Identity → Except String String)
    (hid : identityGet = .ok identity0)
    (hrf : refreshTokenFunc identity0 = .ok newToken)
    (hexp : ∀ i, store0.tokenExpiration < now i + store0.authRefreshBuffer)
    (hfresh : ∀ i, ¬ extractTokenExpiration parse newToken < now i + store0.authRefreshBuffer)
    {i : Fin n} {s s' : AState n}
    (hstep : AuthStep parse identityGet refreshTokenFunc now i s s')
    (hinv : AuthInv parse now store0 newToken s) :
    AuthInv parse now store0 newToken s' := by
  obtain ⟨h1, h2, h3, h4, h5, h6⟩ := hinv
  cases hstep with
  | fastFresh hpc hchk =>
      refine ⟨h1, h2, h3, ?_, ?_, ?_⟩
      · intro j
        dsimp only
        rcases eq_or_ne j i with rfl | hj
        · rw [Function.update_same]
          refine iff_of_false (by rintro (h | h) <;> exact APc.noConfusion h) ?_
          intro hl
          have hmem := (h4 j).mpr hl
          rw [hpc] at hmem
          rcases hmem with h | h <;> exact APc.noConfusion h
        · rw [Function.update_noteq hj]
          exact h4 j
      · intro j hdr
        dsimp only at hdr ⊢
        rcases eq_or_ne j i with rfl | hj
        · rw [Function.update_same] at hdr; exact APc.noConfusion hdr
        · rw [Function.update_noteq hj] at hdr; exact h5 j hdr
      · intro j r hdone
        dsimp only at hdone
        rcases eq_or_ne j i with rfl | hj
        · rw [Function.update_same] at hdone
          injection hdone with hr
          rw [← hr, check_false_token_eq parse now store0 newToken hexp h1 h2 h3 j hchk]
        · rw [Function.update_noteq hj] at hdone; exact h6 j r hdone
  | fastStale hpc hchk =>
      refine ⟨h1, h2, h3, ?_, ?_, ?_⟩
      · intro j
        dsimp only
        rcases eq_or_ne j i with rfl | hj
        · rw [Function.update_same]
          refine iff_of_false (by rintro (h | h) <;> exact APc.noConfusion h) ?_
          intro hl
          have hmem := (h4 j).mpr hl
          rw [hpc] at hmem
          rcases hmem with h | h <;> exact APc.noConfusion h
        · rw [Function.update_noteq hj]
          exact h4 j
      · intro j hdr
        dsimp only at hdr ⊢
        rcases eq_or_ne j i with rfl | hj
        · rw [Function.update_same] at hdr; exact APc.noConfusion hdr
        · rw [Function.update_noteq hj] at hdr; exact h5 j hdr
      · intro j r hdone
        dsimp only at hdone
        rcases eq_or_ne j i with rfl | hj
        · rw [Function.update_same] at hdone; exact APc.noConfusion hdone
        · rw [Function.update_noteq hj] at hdone; exact h6 j r hdone
  | acquire hpc hlock =>
      refine ⟨h1, h2, h3, ?_, ?_, ?_⟩
      · intro j
        dsimp only
        rcases eq_or_ne j i with rfl | hj
        · rw [Function.update_same]
          exact iff_of_true (Or.inl rfl) rfl
        · rw [Function.update_noteq hj]
          refine iff_of_false ?_ ?_
          · intro hmem
            have hl := (h4 j).mp hmem
            rw [hlock] at hl
            exact Option.noConfusion hl
          · intro hl
            exact hj (Option.some.inj hl).symm
      · intro j hdr
        dsimp only at hdr ⊢
        rcases eq_or_ne j i with rfl | hj
        · rw [Function.update_same] at hdr; exact APc.noConfusion hdr
        · rw [Function.update_noteq hj] at hdr; exact h5 j hdr
      · intro j r hdone
        dsimp only at hdone
        rcases eq_or_ne j i with rfl | hj
        · rw [Function.update_same] at hdone; exact APc.noConfusion hdone
        · rw [Function.update_noteq hj] at hdone; exact h6 j r hdone
  | recheckFresh hpc hchk =>
      refine ⟨h1, h2, h3, ?_, ?_, ?_⟩
      · intro j
        dsimp only
        rcases eq_or_ne j i with rfl | hj
        · rw [Function.update_same]
          exact iff_of_false (by rintro (h | h) <;> exact APc.noConfusion h)
            (fun hl => Option.noConfusion hl)
        · rw [Function.update_noteq hj]
          refine iff_of_false ?_ (fun hl => Option.noConfusion hl)
          intro hmem
          have hj' := (h4 j).mp hmem
          have hi' := (h4 i).mp (Or.inl hpc)
          rw [hi'] at hj'
          exact hj (Option.some.inj hj').symm
      · intro j hdr
        dsimp only at hdr ⊢
        rcases eq_or_ne j i with rfl | hj
        · rw [Function.update_same] at hdr; exact APc.noConfusion hdr
        · rw [Function.update_noteq hj] at hdr; exact h5 j hdr
      · intro j r hdone
        dsimp only at hdone
        rcases eq_or_ne j i with rfl | hj
        · rw [Function.update_same] at hdone
          injection hdone with hr
          rw [← hr, check_false_token_eq parse now store0 newToken hexp h1 h2 h3 j hchk]
        · rw [Function.update_noteq hj] at hdone; exact h6 j r hdone
  | recheckStale hpc hchk =>
      have hcount : s.refreshCount = 0 := by
        rcases Nat.le_one_iff_eq_zero_or_eq_one.mp h1 with h0 | h0
        · exact h0
        · exfalso
          rw [h3 h0] at hchk
          simp only [getTokenAndCheckExpiryAt, decide_eq_true_eq] at hchk
          exact hfresh i hchk
      refine ⟨h1, h2, h3, ?_, ?_, ?_⟩
      · intro j
        dsimp only
        rcases eq_or_ne j i with rfl | hj
        · rw [Function.update_same]
          exact iff_of_true (Or.inr rfl) ((h4 j).mp (Or.inl hpc))
        · rw [Function.update_noteq hj]
          exact h4 j
      · intro j hdr
        dsimp only at hdr ⊢
        rcases eq_or_ne j i with rfl | hj
        · exact hcount
        · rw [Function.update_noteq hj] at hdr; exact h5 j hdr
      · intro j r hdone
        dsimp only at hdone
        rcases eq_or_ne j i with rfl | hj
        · rw [Function.update_same] at hdone; exact APc.noConfusion hdone
        · rw [Function.update_noteq hj] at hdone; exact h6 j r hdone
  | identityErr e hpc hfetch =>
      rw [hid] at hfetch
      exact Except.noConfusion hfetch
  | refreshErr identity e hpc hfetch hfail =>
      rw [hid] at hfetch
      have hident := Except.ok.inj hfetch
      rw [← hident] at hfail
      rw [hrf] at hfail
      exact Except.noConfusion hfail
  | refreshOk identity tok hpc hfetch hfok =>
      rw [hid] at hfetch
      have hident := Except.ok.inj hfetch
      rw [← hident] at hfok
      rw [hrf] at hfok
      have htok := Except.ok.inj hfok
      have hcount := h5 i hpc
      have hstore := h2 hcount
      have hlocki := (h4 i).mp (Or.inr hpc)
      refine ⟨?_, ?_, ?_, ?_, ?_, ?_⟩
      · dsimp only
        omega
      · dsimp only
        omega
      · intro _
        show setBearerToken parse s.store tok = setBearerToken parse store0 newToken
        rw [hstore, htok]
      · intro j
        dsimp only
        rcases eq_or_ne j i with rfl | hj
        · rw [Function.update_same]
          exact iff_of_false (by rintro (h | h) <;> exact APc.noConfusion h)
            (fun hl => Option.noConfusion hl)
        · rw [Function.update_noteq hj]
          refine iff_of_false ?_ (fun hl => Option.noConfusion hl)
          intro hmem
          have hj' := (h4 j).mp hmem
          rw [hlocki] at hj'
          exact hj (Option.some.inj hj').symm
      · intro j hdr
        dsimp only at hdr ⊢
        rcases eq_or_ne j i with rfl | hj
        · rw [Function.update_same] at hdr; exact APc.noConfusion hdr
        · rw [Function.update_noteq hj] at hdr
          exfalso
          have hj' := (h4 j).mp (Or.inr hdr)
          rw [hlocki] at hj'
          exact hj (Option.some.inj hj').symm
      · intro j r hdone
        dsimp only at hdone
        rcases eq_or_ne j i with rfl | hj
        · rw [Function.update_same] at hdone
          injection hdone with hr
          rw [← hr, htok]
        · rw [Function.update_noteq hj] at hdone; exact h6 j r hdone

/-- The invariant holds in the initial state. -/
theorem authInv_init (parse : String → JwtParseResult) {n : Nat}
    (now : Fin n → Int) (store0 : RefreshableAuthStore) (newToken : String) :
    AuthInv parse now store0 newToken (initAState n store0) := by
  refine ⟨Nat.zero_le _, fun _ => rfl, fun h => Nat.noConfusion h, ?_, ?_, ?_⟩
  · intro i
    exact iff_of_false (by rintro (h | h) <;> exact APc.noConfusion h)
      (fun hl => Option.noConfusion hl)
  · intro i h
    exact APc.noConfusion h
  · intro i r h
    exact APc.noConfusion h

/-- Every reachable state satisfies the invariant. -/
theorem authInv_reach (parse : String → JwtParseResult) {n : Nat}
    (now : Fin n → Int) (store0 : RefreshableAuthStore)
    (identity0 : Identity) (newToken : String)
    (identityGet : Except String Identity)
    (refreshTokenFunc : Identity → Except String String)
    (hid : identityGet = .ok identity0)
    (hrf : refreshTokenFunc identity0 = .ok newToken)
    (hexp : ∀ i, store0.tokenExpiration < now i + store0.authRefreshBuffer)
    (hfresh : ∀ i, ¬ extractTokenExpiration parse newToken < now i + store0.authRefreshBuffer)
    {s : AState n}
    (hreach : AuthReach parse identityGet refreshTokenFunc now store0 s) :
    AuthInv parse now store0 newToken s := by
  induction hreach with
  | refl => exact authInv_init parse now store0 newToken
  | tail _ hstep ih =>
      obtain ⟨i, hstep⟩ := hstep
      exact authInv_step parse now store0 identity0 newToken identityGet refreshTokenFunc
        hid hrf hexp hfresh hstep ih

/-- C1 (amended): for `n` concurrent `getValidToken` callers on a store whose
cached token is stale at every caller's entry time, if the credential fetch
succeeds and the refresh function succeeds with a token that is not yet stale
at any caller's entry time, then in every reachable interleaving
`refreshTokenFunc` is invoked at most once, and every caller that has
completed returned that same new token. -/
theorem c1_single_flight_refresh (parse : String → JwtParseResult) {n : Nat}
    (now : Fin n → Int) (store0 : RefreshableAuthStore)
    (identity0 : Identity) (newToken : String)
    (identityGet : Except String Identity)
    (refreshTokenFunc : Identity → Except String String)
    (hid : identityGet = .ok identity0)
    (hrf : refreshTokenFunc identity0 = .ok newToken)
    (hexp : ∀ i, store0.tokenExpiration < now i + store0.authRefreshBuffer)
    (hfresh : ∀ i, ¬ extractTokenExpiration parse newToken < now i + store0.authRefreshBuffer)
    (s : AState n)
    (hreach : AuthReach parse identityGet refreshTokenFunc now store0 s) :
    s.refreshCount ≤ 1 ∧ ∀ i r, s.pcs i = .done r → r = .ok newToken := by
  have hinv := authInv_reach parse now store0 identity0 newToken identityGet refreshTokenFunc
    hid hrf hexp hfresh hreach
  exact ⟨hinv.count_le, hinv.done_ok⟩

/-- C1 witness: two concurrent callers at entry time 5 on a fresh (empty,
zero-expiration, zero-buffer) store, with a refresh oracle that returns
"newtok" decoding to expiration 100. -/
theorem c1_single_flight_refresh_witness :
    (initAState 2 (newRefreshableAuthStore 0)).refreshCount ≤ 1 ∧
    ∀ (i : Fin 2) (r : Except String String),
      (initAState 2 (newRefreshableAuthStore 0)).pcs i = .done r → r = .ok "newtok" :=
  c1_single_flight_refresh parseExp100 (fun _ => 5) (newRefreshableAuthStore 0)
    { user := "u", secret := "s" } "newtok" idOk rfOk rfl rfl
    (fun _ => by show (0 : Int) < 5 + 0; decide)
    (fun _ => by show ¬ (100 : Int) < 5 + 0; decide)
    (initAState 2 (newRefreshableAuthStore 0)) Relation.ReflTransGen.refl

/-! ## The two-refresh interleaving (refutes unconditional single-flight) -/

/-- A parser oracle that decodes every token to expiration instant 5. -/
def parseExp5 : String → JwtParseResult := fun _ => .expiration 5

/-- Shared helper: with two concurrent callers that both entered at time 10
on a stale cache, and a successful refresh whose new token decodes to
expiration 5 (already stale at the callers' entry times, e.g. a short-lived
or undecodable token), there is an interleaving in which `refreshTokenFunc`
is invoked twice: the second lock holder re-checks staleness at its own entry
time and refreshes again. -/
theorem twoRefresh_trace :
    ∃ s : AState 2,
      AuthReach parseExp5 idOk rfOk (fun _ => (10 : Int))
        { token := "old", tokenExpiration := 0, authRefreshBuffer := 0 } s ∧
      s.refreshCount = 2 := by
  refine ⟨_,
    Relation.ReflTransGen.tail (Relation.ReflTransGen.tail (Relation.ReflTransGen.tail
      (Relation.ReflTransGen.tail (Relation.ReflTransGen.tail (Relation.ReflTransGen.tail
        (Relation.ReflTransGen.tail (Relation.ReflTransGen.tail Relation.ReflTransGen.refl
          ⟨0, AuthStep.fastStale _ rfl rfl⟩)
          ⟨1, AuthStep.fastStale _ rfl rfl⟩)
          ⟨0, AuthStep.acquire _ rfl rfl⟩)
          ⟨0, AuthStep.recheckStale _ rfl rfl⟩)
          ⟨0, AuthStep.refreshOk _ { user := "u", secret := "s" } "newtok" rfl rfl rfl⟩)
          ⟨1, AuthStep.acquire _ rfl rfl⟩)
          ⟨1, AuthStep.recheckStale _ rfl rfl⟩)
          ⟨1, AuthStep.refreshOk _ { user := "u", secret := "s" } "newtok" rfl rfl rfl⟩,
    rfl⟩

/-- C1 (counterexample): the claim as stated — at most one `RefreshTokenFunc`
invocation for any set of concurrent callers on an expired cached token — is
false without an assumption on the refreshed token: both callers below start
on an expired cache and the refresh succeeds every time, yet a reachable
interleaving performs two refresh invocations, because the refreshed token is
already stale at the second caller's entry time. -/
theorem c1_counterexample :
    ∃ s : AState 2,
      AuthReach parseExp5 idOk rfOk (fun _ => (10 : Int))
        { token := "old", tokenExpiration := 0, authRefreshBuffer := 0 } s ∧
      s.refreshCount = 2 :=
  twoRefresh_trace

/-! ## C10: both staleness checks use the entry-time clock reading -/

/-- C10: `getValidToken` captures the clock once at entry.  First conjunct:
whenever a caller at the under-lock re-check takes a step, the branch it
takes is decided by the staleness check evaluated at that caller's entry
time `now i` — the model has no other clock reading, mirroring the code,
where `getTokenAndCheckExpiryAt(now)` is called with the `now` captured at
entry both times.  Second conjunct: the observable consequence — a token
refreshed by a previous lock holder is judged against this caller's entry
time, so a new token already stale relative to that entry time is refreshed
again (two refresh invocations), which a fresh clock reading taken after
waiting for the lock would not mandate. -/
theorem c10_entry_time_recheck :
    (∀ (parse : String → JwtParseResult) (identityGet : Except String Identity)
       (refreshTokenFunc : Identity → Except String String)
       {n : Nat} (now : Fin n → Int) (i : Fin n) (s s' : AState n),
      AuthStep parse identityGet refreshTokenFunc now i s s' →
      s.pcs i = .recheck →
      ((getTokenAndCheckExpiryAt s.store (now i)).2 = false ∧
        s' = { s with lockHeld := none,
                      pcs := Function.update s.pcs i (.done (.ok s.store.token)) }) ∨
      ((getTokenAndCheckExpiryAt s.store (now i)).2 = true ∧
        s' = { s with pcs := Function.update s.pcs i .doRefresh })) ∧
    (∃ s : AState 2,
      AuthReach parseExp5 idOk rfOk (fun _ => (10 : Int))
        { token := "old", tokenExpiration := 0, authRefreshBuffer := 0 } s ∧
      s.refreshCount = 2) := by
  constructor
  · intro parse identityGet refreshTokenFunc n now i s s' hstep hrecheck
    cases hstep with
    | fastFresh hpc hchk => rw [hrecheck] at hpc; exact APc.noConfusion hpc
    | fastStale hpc hchk => rw [hrecheck] at hpc; exact APc.noConfusion hpc
    | acquire hpc hlock => rw [hrecheck] at hpc; exact APc.noConfusion hpc
    | recheckFresh hpc hchk => exact Or.inl ⟨hchk, rfl⟩
    | recheckStale hpc hchk => exact Or.inr ⟨hchk, rfl⟩
    | identityErr e hpc hfetch => rw [hrecheck] at hpc; exact APc.noConfusion hpc
    | refreshErr identity e hpc hfetch hfail => rw [hrecheck] at hpc; exact APc.noConfusion hpc
    | refreshOk identity tok hpc hfetch hfok => rw [hrecheck] at hpc; exact APc.noConfusion hpc
  · exact twoRefresh_trace

/-- C10 witness: the re-check inversion applied to a concrete single-caller
state holding the lock at `recheck` on a stale cache, at entry time 10. -/
theorem c10_entry_time_recheck_witness :
    ((getTokenAndCheckExpiryAt
        (RefreshableAuthStore.mk "old" 0 0) ((fun _ : Fin 1 => (10 : Int)) 0)).2 = false ∧
      ({ store := RefreshableAuthStore.mk "old" 0 0, lockHeld := some 0, refreshCount := 0,
         pcs := Function.update (fun _ : Fin 1 => APc.recheck) 0 APc.doRefresh } : AState 1) =
      { store := RefreshableAuthStore.mk "old" 0 0, lockHeld := none, refreshCount := 0,
        pcs := Function.update (fun _ : Fin 1 => APc.recheck) 0
          (.done (.ok "old")) }) ∨
    ((getTokenAndCheckExpiryAt
        (RefreshableAuthStore.mk "old" 0 0) ((fun _ : Fin 1 => (10 : Int)) 0)).2 = true ∧
      ({ store := RefreshableAuthStore.mk "old" 0 0, lockHeld := some 0, refreshCount := 0,
         pcs := Function.update (fun _ : Fin 1 => APc.recheck) 0 APc.doRefresh } : AState 1) =
      { store := RefreshableAuthStore.mk "old" 0 0, lockHeld := some 0, refreshCount := 0,
        pcs := Function.update (fun _ : Fin 1 => APc.recheck) 0 APc.doRefresh }) :=
  c10_entry_time_recheck.1 parseExp5 idOk rfOk (fun _ => (10 : Int)) 0
    { store := RefreshableAuthStore.mk "old" 0 0, lockHeld := some 0, refreshCount := 0,
      pcs := fun _ => APc.recheck }
    { store := RefreshableAuthStore.mk "old" 0 0, lockHeld := some 0, refreshCount := 0,
      pcs := Function.update (fun _ : Fin 1 => APc.recheck) 0 APc.doRefresh }
    (AuthStep.recheckStale _ rfl rfl) rfl

/-! ## Interceptor store: generation-gated single-flight recovery

`interceptorStore` wraps an `Interceptor` with an `RWMutex` and a generation
counter.  The wrapped interceptor's behaviour is external: each call to
`Interceptor.Recover` is modelled by an oracle giving the outcome of the
k-th invocation.  `shouldIntercept`, `apply` and `maxRetries` touch no store
state; `apply` is tracked by a per-request counter in the concurrent model. -/

/-- `interceptorStore`: the shared mutable state is the generation counter
(incremented on each successful recovery). -/
structure InterceptorStore where
  generation : Nat
  deriving DecidableEq, Repr

/-- `newInterceptorStore`: Go zero value gives generation 0. -/
def newInterceptorStore : InterceptorStore :=
  { generation := 0 }

/-- What one `interceptorStore.recover` call produced: the store afterwards,
the error it returned (`none` = nil), and whether `Interceptor.Recover` was
actually invoked. -/
structure RecoverOutcome where
  store : InterceptorStore
  err : Option String
  invoked : Bool
  deriving DecidableEq, Repr

/-- `interceptorStore.recover` (executed atomically under `s.mu.Lock`):
if the generation changed while waiting for the lock (`generation ≠
genBefore`), skip — someone else already recovered — and return nil without
invoking `Recover`; otherwise invoke `Recover` and increment the generation
exactly when it succeeds, propagating its error otherwise. -/
def interceptorStoreRecover (recoverResult : Except String Unit)
    (s : InterceptorStore) (genBefore : Nat) : RecoverOutcome :=
  if s.generation ≠ genBefore then
    { store := s, err := none, invoked := false }
  else
    match recoverResult with
    | .ok _ => { store := { generation := s.generation + 1 }, err := none, invoked := true }
    | .error e => { store := s, err := some e, invoked := true }

/-! ### Concurrent semantics of the IR retry-hook protocol

Each of `n` in-flight intercepted requests owns a local baseline `initGen`
(captured at `IR()` time, updated across its own retries).  On a triggered
intercept the retry hook runs: read `currentGen`; if it differs from the
baseline, apply current state and advance the baseline (no recovery); else
call `store.recover(c, resp, currentGen)` — wait for the exclusive lock,
re-test the generation under it, recover or skip — and on a nil return apply
state and re-read the generation as the new baseline. -/

/-- Program counter of one intercepted request inside its retry hook. -/
inductive IPc where
  | ready (initGen : Nat)
  | waitLock (initGen : Nat) (genBefore : Nat)
  | locked (initGen : Nat) (genBefore : Nat)
  | postOk
  | hookDone (initGen : Nat)

/-- Per-request state: hook program counter and how many times
`Interceptor.Apply` has run for this request. -/
structure IReq where
  pc : IPc
  applyCount : Nat

/-- Global state of one `interceptorStore` with `n` in-flight requests. -/
structure IState (n : Nat) where
  generation : Nat
  lockHeld : Bool
  recoverCount : Nat
  reqs : Fin n → IReq

/-- Initial state: generation `g0`, each request `i` holding the baseline
`b i` it captured from `getGeneration()` when it was created. -/
def initIState (n : Nat) (g0 : Nat) (b : Fin n → Nat) : IState n :=
  { generation := g0, lockHeld := false, recoverCount := 0,
    reqs := fun i => { pc := .ready (b i), applyCount := 0 } }

/-- One interleaved step of request `i`'s retry hook.  `outcomes k` is the
result of the k-th `Interceptor.Recover` invocation on this store. -/
inductive IStep (outcomes : Nat → Except String Unit) {n : Nat} (i : Fin n) :
    IState n → IState n → Prop where
  | readSkip (s : IState n) (g : Nat) :
      (s.reqs i).pc = .ready g →
      s.generation ≠ g →
      -- generation changed since the baseline: apply new state, advance the
      -- local baseline to the observed generation, no recovery
      IStep outcomes i s
        { s with reqs :=
            Function.update s.reqs i ⟨.hookDone s.generation, (s.reqs i).applyCount + 1⟩ }
  | readMatch (s : IState n) (g : Nat) :
      (s.reqs i).pc = .ready g →
      s.generation = g →
      -- this request is responsible: call recover with genBefore := the read
      IStep outcomes i s
        { s with reqs :=
            Function.update s.reqs i ⟨.waitLock g s.generation, (s.reqs i).applyCount⟩ }
  | acquire (s : IState n) (g gb : Nat) :
      (s.reqs i).pc = .waitLock g gb →
      s.lockHeld = false →
      IStep outcomes i s
        { s with lockHeld := true,
                 reqs := Function.update s.reqs i ⟨.locked g gb, (s.reqs i).applyCount⟩ }
  | lockSkip (s : IState n) (g gb : Nat) :
      (s.reqs i).pc = .locked g gb →
      s.generation ≠ gb →
      -- generation advanced while waiting: recover returns nil, not invoked
      IStep outcomes i s
        { s with lockHeld := false,
                 reqs := Function.update s.reqs i ⟨.postOk, (s.reqs i).applyCount⟩ }
  | recoverOk (s : IState n) (g gb : Nat) :
      (s.reqs i).pc = .locked g gb →
      s.generation = gb →
      outcomes s.recoverCount = .ok () →
      -- Recover invoked and succeeded: increment generation, return nil
      IStep outcomes i s
        { s with generation := s.generation + 1, lockHeld := false,
                 recoverCount := s.recoverCount + 1,
                 reqs := Function.update s.reqs i ⟨.postOk, (s.reqs i).applyCount⟩ }
  | recoverFail (s : IState n) (g gb : Nat) (e : String) :
      (s.reqs i).pc = .locked g gb →
      s.generation = gb →
      outcomes s.recoverCount = .error e →
      -- Recover invoked and failed: generation unchanged, error propagated,
      -- the hook neither applies nor advances the baseline
      IStep outcomes i s
        { s with lockHeld := false,
                 recoverCount := s.recoverCount + 1,
                 reqs := Function.update s.reqs i ⟨.hookDone g, (s.reqs i).applyCount⟩ }
  | applyReread (s : IState n) :
      (s.reqs i).pc = .postOk →
      -- recover returned nil: apply state, baseline := fresh generation read
      IStep outcomes i s
        { s with reqs :=
            Function.update s.reqs i ⟨.hookDone s.generation, (s.reqs i).applyCount + 1⟩ }
  | reenter (s : IState n) (g : Nat) :
      (s.reqs i).pc = .hookDone g →
      -- a later attempt of the same request triggers the hook again
      IStep outcomes i s
        { s with reqs := Function.update s.reqs i ⟨.ready g, (s.reqs i).applyCount⟩ }

/-- Reachability of the interceptor protocol. -/
def IReach (outcomes : Nat → Except String Unit) {n : Nat}
    (g0 : Nat) (b : Fin n → Nat) (s : IState n) : Prop :=
  Relation.ReflTransGen (fun s s' => ∃ i, IStep outcomes i s s') (initIState n g0 b) s

/-! ## C5: the generation counter -/

/-- C5: the generation counter starts at 0; across any single `recover()`
call it never decreases; it increases by exactly 1 when the call is not
gated away (`genBefore` equals the current generation) and the wrapped
`Recover` succeeds — and `Recover` is then really invoked; a call whose
`Recover` fails leaves it unchanged; a gated (skipped) call leaves the store
unchanged, returns nil and does not invoke `Recover`; and along every
interleaved step of the retry-hook protocol the generation never decreases. -/
theorem c5_generation_protocol :
    newInterceptorStore.generation = 0 ∧
    (∀ (recoverResult : Except String Unit) (s : InterceptorStore) (genBefore : Nat),
      s.generation ≤ (interceptorStoreRecover recoverResult s genBefore).store.generation) ∧
    (∀ (s : InterceptorStore) (genBefore : Nat), genBefore = s.generation →
      (interceptorStoreRecover (.ok ()) s genBefore).store.generation = s.generation + 1 ∧
      (interceptorStoreRecover (.ok ()) s genBefore).invoked = true) ∧
    (∀ (s : InterceptorStore) (genBefore : Nat) (e : String),
      (interceptorStoreRecover (.error e) s genBefore).store.generation = s.generation) ∧
    (∀ (recoverResult : Except String Unit) (s : InterceptorStore) (genBefore : Nat),
      genBefore ≠ s.generation →
      interceptorStoreRecover recoverResult s genBefore =
        { store := s, err := none, invoked := false }) ∧
    (∀ (outcomes : Nat → Except String Unit) (n : Nat) (i : Fin n) (s s' : IState n),
      IStep outcomes i s s' → s.generation ≤ s'.generation) := by
  refine ⟨rfl, ?_, ?_, ?_, ?_, ?_⟩
  · intro recoverResult s genBefore
    by_cases h : s.generation ≠ genBefore
    · simp [interceptorStoreRecover, h]
    · cases recoverResult with
      | ok u => simp [interceptorStoreRecover, h]
      | error e => simp [interceptorStoreRecover, h]
  · intro s genBefore h
    have h' : ¬ s.generation ≠ genBefore := by omega
    constructor <;> simp [interceptorStoreRecover, h']
  · intro s genBefore e
    by_cases h : s.generation ≠ genBefore
    · simp [interceptorStoreRecover, h]
    · simp [interceptorStoreRecover, h]
  · intro recoverResult s genBefore h
    have h' : s.generation ≠ genBefore := by omega
    simp [interceptorStoreRecover, h']
  · intro outcomes n i s s' hstep
    cases hstep <;> dsimp only <;> omega

/-- A one-request protocol state used by witnesses: fresh store, baseline 0. -/
def witIState0 : IState 1 := initIState 1 0 (fun _ => 0)

/-- C5 witness: each clause instantiated on the fresh store / a concrete
successful-recovery step of a single-request protocol. -/
theorem c5_generation_protocol_witness :
    newInterceptorStore.generation = 0 ∧
    newInterceptorStore.generation ≤
      (interceptorStoreRecover (.ok ()) newInterceptorStore 0).store.generation ∧
    ((interceptorStoreRecover (.ok ()) newInterceptorStore 0).store.generation =
        newInterceptorStore.generation + 1 ∧
      (interceptorStoreRecover (.ok ()) newInterceptorStore 0).invoked = true) ∧
    (interceptorStoreRecover (.error "boom") newInterceptorStore 0).store.generation =
      newInterceptorStore.generation ∧
    interceptorStoreRecover (.ok ()) newInterceptorStore 7 =
      { store := newInterceptorStore, err := none, invoked := false } ∧
    witIState0.generation ≤
      ({ witIState0 with reqs :=
          Function.update witIState0.reqs 0 ⟨.waitLock 0 0, 0⟩ } : IState 1).generation :=
  ⟨c5_generation_protocol.1,
   c5_generation_protocol.2.1 (.ok ()) newInterceptorStore 0,
   c5_generation_protocol.2.2.1 newInterceptorStore 0 rfl,
   c5_generation_protocol.2.2.2.1 newInterceptorStore 0 "boom",
   c5_generation_protocol.2.2.2.2.1 (.ok ()) newInterceptorStore 7 (by decide),
   c5_generation_protocol.2.2.2.2.2 (fun _ => .ok ()) 1 0 witIState0 _
     (IStep.readMatch witIState0 0 rfl rfl)⟩

/-! ## C6: recovery is generation-gated, skips reapply and advance baseline -/

/-- Helper: one step preserves the baseline coherence "a request waiting on
or holding the recovery lock passed `genBefore` equal to its own baseline"
(in the code, `recover` is always called with `genBefore := currentGen`,
which the hook only does after observing `currentGen = initGen`). -/
theorem iBaselineInv_step (outcomes : Nat → Except String Unit) {n : Nat}
    (i : Fin n) {s s' : IState n}
    (hstep : IStep outcomes i s s')
    (hinv : ∀ j g gb, ((s.reqs j).pc = .waitLock g gb ∨ (s.reqs j).pc = .locked g gb) →
      gb = g) :
    ∀ j g gb, ((s'.reqs j).pc = .waitLock g gb ∨ (s'.reqs j).pc = .locked g gb) → gb = g := by
  cases hstep with
  | readSkip g0 hpc hne =>
      intro j g gb hmem
      dsimp only at hmem
      rcases eq_or_ne j i with rfl | hj
      · rw [Function.update_same] at hmem
        rcases hmem with h | h <;> exact IPc.noConfusion h
      · rw [Function.update_noteq hj] at hmem
        exact hinv j g gb hmem
  | readMatch g0 hpc hg =>
      intro j g gb hmem
      dsimp only at hmem
      rcases eq_or_ne j i with rfl | hj
      · rw [Function.update_same] at hmem
        rcases hmem with h | h
        · injection h with h1 h2
          rw [← h1, ← h2, hg]
        · exact IPc.noConfusion h
      · rw [Function.update_noteq hj] at hmem
        exact hinv j g gb hmem
  | acquire g0 gb0 hpc hlock =>
      intro j g gb hmem
      dsimp only at hmem
      rcases eq_or_ne j i with rfl | hj
      · rw [Function.update_same] at hmem
        rcases hmem with h | h
        · exact IPc.noConfusion h
        · injection h with h1 h2
          rw [← h1, ← h2]
          exact hinv j g0 gb0 (Or.inl hpc)
      · rw [Function.update_noteq hj] at hmem
        exact hinv j g gb hmem
  | lockSkip g0 gb0 hpc hne =>
      intro j g gb hmem
      dsimp only at hmem
      rcases eq_or_ne j i with rfl | hj
      · rw [Function.update_same] at hmem
        rcases hmem with h | h <;> exact IPc.noConfusion h
      · rw [Function.update_noteq hj] at hmem
        exact hinv j g gb hmem
  | recoverOk g0 gb0 hpc hg hout =>
      intro j g gb hmem
      dsimp only at hmem
      rcases eq_or_ne j i with rfl | hj
      · rw [Function.update_same] at hmem
        rcases hmem with h | h <;> exact IPc.noConfusion h
      · rw [Function.update_noteq hj] at hmem
        exact hinv j g gb hmem
  | recoverFail g0 gb0 e hpc hg hout =>
      intro j g gb hmem
      dsimp only at hmem
      rcases eq_or_ne j i with rfl | hj
      · rw [Function.update_same] at hmem
        rcases hmem with h | h <;> exact IPc.noConfusion h
      · rw [Function.update_noteq hj] at hmem
        exact hinv j g gb hmem
  | applyReread hpc =>
      intro j g gb hmem
      dsimp only at hmem
      rcases eq_or_ne j i with rfl | hj
      · rw [Function.update_same] at hmem
        rcases hmem with h | h <;> exact IPc.noConfusion h
      · rw [Function.update_noteq hj] at hmem
        exact hinv j g gb hmem
  | reenter g0 hpc =>
      intro j g gb hmem
      dsimp only at hmem
      rcases eq_or_ne j i with rfl | hj
      · rw [Function.update_same] at hmem
        rcases hmem with h | h <;> exact IPc.noConfusion h
      · rw [Function.update_noteq hj] at hmem
        exact hinv j g gb hmem

/-- Helper: the baseline coherence property holds in every reachable state. -/
theorem iBaselineInv_reach (outcomes : Nat → Except String Unit) {n : Nat}
    (g0 : Nat) (b : Fin n → Nat) {s : IState n}
    (hreach : IReach outcomes g0 b s) :
    ∀ j g gb, ((s.reqs j).pc = .waitLock g gb ∨ (s.reqs j).pc = .locked g gb) → gb = g := by
  induction hreach with
  | refl =>
      intro j g gb hmem
      rcases hmem with h | h <;> exact IPc.noConfusion h
  | tail _ hstep ih =>
      obtain ⟨i, hstep⟩ := hstep
      exact iBaselineInv_step outcomes i hstep ih

/-- C6: `Interceptor.Recover` is generation-gated.  First conjunct: in every
reachable state, any request waiting on or holding the recovery lock carries
`genBefore` equal to its captured baseline (the hook only enters the recover
path after reading a generation equal to its baseline).  Second conjunct:
any step that invokes `Recover` (the invocation counter increases) happens
from a request holding the lock whose baseline, `genBefore` and the current
generation under the lock all coincide.  Third conjunct: when the hook's
read observes a generation different from the request's baseline, the step
calls no recovery and exactly reapplies state (`applyCount + 1`) and
advances the local baseline to the observed generation. -/
theorem c6_recover_generation_gated (outcomes : Nat → Except String Unit)
    {n : Nat} (g0 : Nat) (b : Fin n → Nat) :
    (∀ s : IState n, IReach outcomes g0 b s →
      ∀ i g gb, ((s.reqs i).pc = .waitLock g gb ∨ (s.reqs i).pc = .locked g gb) → gb = g) ∧
    (∀ (s s' : IState n) (i : Fin n), IReach outcomes g0 b s → IStep outcomes i s s' →
      s.recoverCount < s'.recoverCount →
      ∃ g, (s.reqs i).pc = .locked g g ∧ s.generation = g) ∧
    (∀ (s s' : IState n) (i : Fin n) (g : Nat), IStep outcomes i s s' →
      (s.reqs i).pc = .ready g → s.generation ≠ g →
      s' = { s with reqs :=
        Function.update s.reqs i ⟨.hookDone s.generation, (s.reqs i).applyCount + 1⟩ }) := by
  refine ⟨?_, ?_, ?_⟩
  · intro s hreach
    exact iBaselineInv_reach outcomes g0 b hreach
  · intro s s' i hreach hstep hcnt
    have hinv := iBaselineInv_reach outcomes g0 b hreach
    cases hstep with
    | readSkip g0' hpc hne => dsimp only at hcnt; omega
    | readMatch g0' hpc hg => dsimp only at hcnt; omega
    | acquire g0' gb0 hpc hlock => dsimp only at hcnt; omega
    | lockSkip g0' gb0 hpc hne => dsimp only at hcnt; omega
    | recoverOk g0' gb0 hpc hg hout =>
        have hgb := hinv i g0' gb0 (Or.inr hpc)
        rw [hgb] at hpc hg
        exact ⟨g0', hpc, hg⟩
    | recoverFail g0' gb0 e hpc hg hout =>
        have hgb := hinv i g0' gb0 (Or.inr hpc)
        rw [hgb] at hpc hg
        exact ⟨g0', hpc, hg⟩
    | applyReread hpc => dsimp only at hcnt; omega
    | reenter g0' hpc => dsimp only at hcnt; omega
  · intro s s' i g hstep hpc hne
    cases hstep with
    | readSkip g0' hpc' hne' =>
        have h := hpc.symm.trans hpc'
        injection h
        rfl
    | readMatch g0' hpc' hg =>
        have h := hpc.symm.trans hpc'
        injection h with h1
        rw [← h1] at hg
        exact absurd hg hne
    | acquire g0' gb0 hpc' hlock => exact absurd (hpc.symm.trans hpc') (fun h => IPc.noConfusion h)
    | lockSkip g0' gb0 hpc' hne' => exact absurd (hpc.symm.trans hpc') (fun h => IPc.noConfusion h)
    | recoverOk g0' gb0 hpc' hg hout => exact absurd (hpc.symm.trans hpc') (fun h => IPc.noConfusion h)
    | recoverFail g0' gb0 e hpc' hg hout => exact absurd (hpc.symm.trans hpc') (fun h => IPc.noConfusion h)
    | applyReread hpc' => exact absurd (hpc.symm.trans hpc') (fun h => IPc.noConfusion h)
    | reenter g0' hpc' => exact absurd (hpc.symm.trans hpc') (fun h => IPc.noConfusion h)

/-- Witness states: the single request has read a matching generation and is
waiting for / holding the recovery lock. -/
def witIState1 : IState 1 :=
  { witIState0 with reqs := Function.update witIState0.reqs 0 ⟨.waitLock 0 0, 0⟩ }

/-- Witness state: the single request holds the recovery lock. -/
def witIState2 : IState 1 :=
  { witIState1 with
    lockHeld := true,
    reqs := Function.update witIState1.reqs 0 ⟨.locked 0 0, 0⟩ }

/-- Witness state: one request whose baseline 0 lags the generation 1. -/
def witIStateB : IState 1 := initIState 1 1 (fun _ => 0)

/-- A recovery oracle that always succeeds. -/
def outcomesOk : Nat → Except String Unit := fun _ => .ok ()

/-- C6 witness: the three conjuncts applied to concrete reachable states of a
one-request protocol — the locked request's baseline coherence, a concrete
`Recover`-invoking step, and a concrete stale-baseline skip step. -/
theorem c6_recover_generation_gated_witness :
    (0 : Nat) = 0 ∧
    (∃ g, (witIState2.reqs 0).pc = .locked g g ∧ witIState2.generation = g) ∧
    ({ witIStateB with
        reqs := Function.update witIStateB.reqs 0
                  ⟨.hookDone witIStateB.generation, (witIStateB.reqs 0).applyCount + 1⟩ } :
        IState 1) =
      { witIStateB with
        reqs := Function.update witIStateB.reqs 0
                  ⟨.hookDone witIStateB.generation, (witIStateB.reqs 0).applyCount + 1⟩ } :=
  ⟨(c6_recover_generation_gated outcomesOk 0 (fun _ => 0)).1 witIState1
      (Relation.ReflTransGen.tail Relation.ReflTransGen.refl
        ⟨0, IStep.readMatch witIState0 0 rfl rfl⟩)
      0 0 0 (Or.inl rfl),
   (c6_recover_generation_gated outcomesOk 0 (fun _ => 0)).2.1 witIState2 _ 0
      (Relation.ReflTransGen.tail (Relation.ReflTransGen.tail Relation.ReflTransGen.refl
        ⟨0, IStep.readMatch witIState0 0 rfl rfl⟩)
        ⟨0, IStep.acquire witIState1 0 0 rfl rfl⟩)
      (IStep.recoverOk witIState2 0 0 rfl rfl rfl)
      (by decide),
   (c6_recover_generation_gated outcomesOk 0 (fun _ => 0)).2.2 witIStateB _ 0 0
      (IStep.readSkip witIStateB 0 rfl (by decide)) rfl (by decide)⟩

/-! ## C7: failed recovery propagates the error without advancing state -/

/-- A recovery oracle whose first invocation fails and later ones succeed. -/
def outcomesFailThenOk : Nat → Except String Unit :=
  fun k => if k = 0 then .error "boom" else .ok ()

/-- C7: first conjunct — when a request holding the recovery lock invokes
`Recover` and it fails, the step leaves the generation unchanged, increments
only the invocation count, releases the lock, performs no reapply
(`applyCount` unchanged) and keeps the request's baseline, so the request
re-enters its next retry with the same baseline.  Second conjunct — with an
oracle that fails once and then succeeds, a later attempt with the same
baseline really does re-attempt recovery and succeed: a state with
generation 1 after two `Recover` invocations is reachable. -/
theorem c7_recover_failure_propagates :
    (∀ (outcomes : Nat → Except String Unit) (n : Nat) (s s' : IState n)
       (i : Fin n) (g gb : Nat) (e : String),
      IStep outcomes i s s' →
      (s.reqs i).pc = .locked g gb →
      s.generation = gb →
      outcomes s.recoverCount = .error e →
      s' = { s with
               lockHeld := false,
               recoverCount := s.recoverCount + 1,
               reqs := Function.update s.reqs i ⟨.hookDone g, (s.reqs i).applyCount⟩ }) ∧
    (∃ s : IState 1,
      IReach outcomesFailThenOk 0 (fun _ => 0) s ∧
      s.generation = 1 ∧ s.recoverCount = 2) := by
  constructor
  · intro outcomes n s s' i g gb e hstep hpc hgen hout
    cases hstep with
    | readSkip g0' hpc' hne' => exact absurd (hpc.symm.trans hpc') (fun h => IPc.noConfusion h)
    | readMatch g0' hpc' hg' => exact absurd (hpc.symm.trans hpc') (fun h => IPc.noConfusion h)
    | acquire g0' gb0 hpc' hlock => exact absurd (hpc.symm.trans hpc') (fun h => IPc.noConfusion h)
    | lockSkip g0' gb0 hpc' hne' =>
        have h := hpc.symm.trans hpc'
        injection h with h1 h2
        rw [← h2] at hne'
        exact absurd hgen hne'
    | recoverOk g0' gb0 hpc' hg' hout' =>
        rw [hout] at hout'
        exact Except.noConfusion hout'
    | recoverFail g0' gb0 e' hpc' hg' hout' =>
        have h := hpc.symm.trans hpc'
        injection h with h1 h2
        rw [← h1]
    | applyReread hpc' => exact absurd (hpc.symm.trans hpc') (fun h => IPc.noConfusion h)
    | reenter g0' hpc' => exact absurd (hpc.symm.trans hpc') (fun h => IPc.noConfusion h)
  · refine ⟨_,
      Relation.ReflTransGen.tail (Relation.ReflTransGen.tail (Relation.ReflTransGen.tail
        (Relation.ReflTransGen.tail (Relation.ReflTransGen.tail (Relation.ReflTransGen.tail
          (Relation.ReflTransGen.tail Relation.ReflTransGen.refl
            ⟨0, IStep.readMatch _ 0 rfl rfl⟩)
            ⟨0, IStep.acquire _ 0 0 rfl rfl⟩)
            ⟨0, IStep.recoverFail _ 0 0 "boom" rfl rfl rfl⟩)
            ⟨0, IStep.reenter _ 0 rfl⟩)
            ⟨0, IStep.readMatch _ 0 rfl rfl⟩)
            ⟨0, IStep.acquire _ 0 0 rfl rfl⟩)
            ⟨0, IStep.recoverOk _ 0 0 rfl rfl rfl⟩,
      rfl, rfl⟩

/-- C7 witness: the failing-recovery inversion applied at the concrete
locked one-request state with the fail-then-succeed oracle. -/
theorem c7_recover_failure_propagates_witness :
    ({ witIState2 with
        lockHeld := false,
        recoverCount := witIState2.recoverCount + 1,
        reqs := Function.update witIState2.reqs 0
                  ⟨.hookDone 0, (witIState2.reqs 0).applyCount⟩ } : IState 1) =
      { witIState2 with
        lockHeld := false,
        recoverCount := witIState2.recoverCount + 1,
        reqs := Function.update witIState2.reqs 0
                  ⟨.hookDone 0, (witIState2.reqs 0).applyCount⟩ } :=
  c7_recover_failure_propagates.1 outcomesFailThenOk 1 witIState2 _ 0 0 0 "boom"
    (IStep.recoverFail witIState2 0 0 "boom" rfl rfl rfl) rfl rfl rfl

/-! ## C8: unknown labels yield requests pre-wired to fail at send time -/

/-- A registered authentication provider: either a fixed token
(`tokenAuthStore`) or a refreshable store (`refreshableAuthStore`). -/
inductive AuthEntry where
  | token (t : String)
  | refreshable (store : RefreshableAuthStore)

/-- A registered interceptor: its store (generation counter) together with
the wrapped interceptor's `MaxRetries()` answer. -/
structure InterceptorEntry where
  store : InterceptorStore
  maxRetriesVal : Int

/-- `interceptorStore.maxRetries`: the wrapped value, defaulting to
`defaultMaxRetries = 1` when it is zero or negative. -/
def maxRetriesOf (m : Int) : Int :=
  if m ≤ 0 then 1 else m

/-- The `Client` registries: label → auth store and label → interceptor
store (each guarded by its own `RWMutex`; lookups are atomic). -/
structure ClientModel where
  auths : List (String × AuthEntry)
  interceptors : List (String × InterceptorEntry)

/-- Go map lookup over an association list. -/
def findEntry {α : Type} : List (String × α) → String → Option α
  | [], _ => none
  | (k, v) :: rest, key => if k = key then some v else findEntry rest key

/-- The parts of a `req.Request` the builder factories configure: a pre-wired
send-time error (an `OnAfterResponse` hook that always errors), the bearer
token, the retry count, and the generation baseline captured at `IR()` time. -/
structure ReqRequest where
  sendError : Option String := none
  bearerToken : Option String := none
  retryCount : Option Int := none
  capturedBaseline : Option Nat := none

/-- Sending a request: the attempt runs and then the pre-wired
`OnAfterResponse` hook, if any, fails the call with its error. -/
def sendRequest (r : ReqRequest) : Except String Unit :=
  match r.sendError with
  | some e => .error e
  | none => .ok ()

/-- `Client.AR`: look up the auth store by service label; if absent, return a
request pre-wired to fail at send time with the descriptive error; otherwise
obtain a valid token (blocking; for a fixed-token store this never fails) and
set the bearer header, wiring any token error as a send-time failure. -/
def ClientModel.AR (parse : String → JwtParseResult)
    (identityGet : Except String Identity)
    (refreshTokenFunc : Identity → Except String String)
    (now : Int) (c : ClientModel) (serviceLabel : String) : ReqRequest :=
  match findEntry c.auths serviceLabel with
  | none =>
      { sendError := some ("auth manager for service " ++ serviceLabel ++ " does not exist") }
  | some (.token t) => { bearerToken := some t }
  | some (.refreshable store) =>
      match (getValidToken parse identityGet refreshTokenFunc now store).result with
      | .error e => { sendError := some e }
      | .ok token => { bearerToken := some token }

/-- `Client.IR`: look up the interceptor store by label; if absent, return a
request pre-wired to fail at send time with the descriptive error; otherwise
apply current state, set the retry count from `maxRetries()` and capture the
current generation as the request's baseline. -/
def ClientModel.IR (c : ClientModel) (label : String) : ReqRequest :=
  match findEntry c.interceptors label with
  | none => { sendError := some ("interceptor " ++ label ++ " does not exist") }
  | some entry =>
      { retryCount := some (maxRetriesOf entry.maxRetriesVal),
        capturedBaseline := some entry.store.generation }

/-- C8: for a label absent from the corresponding registry, `AR` and `IR`
each still return a request object (they are total — no panic and no
builder-construction failure), pre-wired so that sending it fails with the
descriptive not-found error naming the label. -/
theorem c8_unknown_label (parse : String → JwtParseResult)
    (identityGet : Except String Identity)
    (refreshTokenFunc : Identity → Except String String)
    (now : Int) (c : ClientModel) (label : String) :
    (findEntry c.auths label = none →
      (c.AR parse identityGet refreshTokenFunc now label).sendError =
        some ("auth manager for service " ++ label ++ " does not exist") ∧
      sendRequest (c.AR parse identityGet refreshTokenFunc now label) =
        .error ("auth manager for service " ++ label ++ " does not exist")) ∧
    (findEntry c.interceptors label = none →
      (c.IR label).sendError = some ("interceptor " ++ label ++ " does not exist") ∧
      sendRequest (c.IR label) =
        .error ("interceptor " ++ label ++ " does not exist")) := by
  constructor
  · intro hnone
    simp [ClientModel.AR, hnone, sendRequest]
  · intro hnone
    simp [ClientModel.IR, hnone, sendRequest]

/-- C8 witness: an empty registry with the label "svc". -/
theorem c8_unknown_label_witness :
    ((ClientModel.mk [] []).AR parseExp100 idOk rfOk 5 "svc").sendError =
        some ("auth manager for service " ++ "svc" ++ " does not exist") ∧
      sendRequest ((ClientModel.mk [] []).AR parseExp100 idOk rfOk 5 "svc") =
        .error ("auth manager for service " ++ "svc" ++ " does not exist") ∧
      ((ClientModel.mk [] []).IR "svc").sendError =
        some ("interceptor " ++ "svc" ++ " does not exist") ∧
      sendRequest ((ClientModel.mk [] []).IR "svc") =
        .error ("interceptor " ++ "svc" ++ " does not exist") :=
  ⟨((c8_unknown_label parseExp100 idOk rfOk 5 (ClientModel.mk [] []) "svc").1 rfl).1,
   ((c8_unknown_label parseExp100 idOk rfOk 5 (ClientModel.mk [] []) "svc").1 rfl).2,
   ((c8_unknown_label parseExp100 idOk rfOk 5 (ClientModel.mk [] []) "svc").2 rfl).1,
   ((c8_unknown_label parseExp100 idOk rfOk 5 (ClientModel.mk [] []) "svc").2 rfl).2⟩
